import Mathlib

/-!
Verification of the `mp` media-player coordinator package (plaincast).

The definitions below are a shallow embedding of `src/apps/youtube/mp/player.go`
and `src/apps/youtube/mp/mp.go`.  Go machine integers (`int`, `time.Duration`)
are modelled as `Int`; a Go `panic` is modelled as `Except.error`; commands sent
to the playback backend, events emitted on the state-change channel, values sent
on reply channels and log warnings are modelled as an explicit effect list.
Stream resolution runs in a goroutine in the source; its synchronous launch is
recorded as a `resolve` effect and the re-entrant callback that applies the
result is embedded as a separate function (`finishPlaying`) taking the resolved
URL as input, exactly mirroring the closure body in `startPlaying`.
The backend position (read by `player.getPosition()` while playing or paused)
is an environment input, passed as the `bpos` parameter.
-/

namespace MP

/-- Player states.  `mp.go` declares `STATE_STOPPED`, `STATE_PLAYING`,
`STATE_PAUSED`, `STATE_BUFFERING`; `player.go` additionally uses
`STATE_SEEKING`, whose constant declaration is in a part of the repository not
present under `src/` (the spec lists the five states
Stopped/Playing/Paused/Buffering/Seeking). -/
inductive State where
  | stopped
  | playing
  | paused
  | buffering
  | seeking
deriving DecidableEq, Repr

/-- The `PlayState` structure.  Fields `Playlist`, `Index`, `State`, `Volume`,
`bufferingPosition` are declared in `mp.go`; fields `previousState`,
`nextState` and `newVolume` are used throughout `player.go` but their
declarations are in a part of the repository not present under `src/`
(the spec documents them in section 3).  The Go sentinel `nextState == -1`
is rendered as `none`. -/
structure PlayState where
  Playlist : List String
  Index : Int
  State : MP.State
  Volume : Int
  bufferingPosition : Int
  previousState : MP.State
  nextState : Option MP.State
  newVolume : Bool
deriving DecidableEq, Repr

/-- A state change event, as sent over the `stateChange` channel (`mp.go`). -/
structure StateChange where
  State : MP.State
  Position : Int
deriving DecidableEq, Repr

/-- Observable side effects of one critical section: backend commands, events
on the state-change channel, reply-channel sends, goroutine launches, log
warnings. -/
inductive Eff where
  | stateChange (s : State) (position : Int)
  | bPlay (streamUrl : String) (position : Int) (volume : Int)
  | bPause
  | bResume
  | bStop
  | bSetPosition (position : Int)
  | bSetVolume (volume : Int)
  | bQuit
  | resolve (videoId : String)
  | spawnPrefetch (videoId : String)
  | volumeReply (volume : Int)
  | playlistReply (playlist : List String) (index : Int) (position : Int) (s : State)
  | logWarning
deriving DecidableEq, Repr

/-- The state-change events among the effects of a critical section. -/
def stateChanges (effs : List Eff) : List StateChange :=
  effs.filterMap fun e =>
    match e with
    | Eff.stateChange s p => some (StateChange.mk s p)
    | _ => none

/-- Go slice indexing `l[i]` for an `int` index: `some` element when in range,
`none` when the access would panic. -/
def elemAt (l : List String) (i : Int) : Option String :=
  if i < 0 then none else l.get? i.toNat

/-- Modelled from the spec: accessor `PlayState.Video()` is used by
`player.go` (line 133) but declared in a part of the repository not present
under `src/`.  Per the spec, staleness is checked by identifier equality
against the current index, so this returns the identifier at the current
index (empty when out of range). -/
def PlayState.Video (ps : PlayState) : String :=
  (elemAt ps.Playlist ps.Index).getD ""

/-- Modelled from the spec: accessor `PlayState.NextVideo()` is used by
`player.go` (lines 154, 189, 230) but declared in a part of the repository not
present under `src/`.  Per the spec, the next track is the identifier at
index+1, if any (empty when there is none). -/
def PlayState.NextVideo (ps : PlayState) : String :=
  (elemAt ps.Playlist (ps.Index + 1)).getD ""

/-- The initial play state built at the top of `MediaPlayer.run`
(`player.go` lines 424-426): Go zero values for all fields except `Volume`
(the initial volume reported by the backend) and `nextState` (-1). -/
def initialState (initialVolume : Int) : PlayState :=
  { Playlist := []
    Index := 0
    State := State.stopped
    Volume := initialVolume
    bufferingPosition := 0
    previousState := State.stopped
    nextState := none
    newVolume := false }

/-- `MediaPlayer.getPosition` (`player.go` lines 45-69).  `bpos` is the
position reported by the backend, consulted only while playing or paused. -/
def getPosition (bpos : Int) (ps : PlayState) : Except String Int :=
  let position : Int :=
    match ps.State with
    | State.stopped => 0
    | State.buffering => ps.bufferingPosition
    | State.seeking => ps.bufferingPosition
    | State.playing => bpos
    | State.paused => bpos
  if position < 0 then Except.error "got position < 0" else Except.ok position

/-- `MediaPlayer.setPlayState` (`player.go` lines 202-221): updates the state
machine fields and emits a state-change event; `position = -1` means the
position is to be read back (from `bufferingPosition` or the backend). -/
def setPlayState (bpos : Int) (ps : PlayState) (state : State) (position : Int) :
    Except String (PlayState × List Eff) :=
  let position := if ps.State = State.seeking then ps.bufferingPosition else position
  let ps2 : PlayState :=
    { ps with
      previousState := ps.State
      State := state
      bufferingPosition :=
        if state = State.buffering ∨ state = State.seeking then position else -1 }
  match (if position = -1 then getPosition bpos ps2 else Except.ok position) with
  | Except.error e => Except.error e
  | Except.ok pos => Except.ok (ps2, [Eff.stateChange state pos])

/-- Synchronous part of `MediaPlayer.startPlaying` (`player.go` lines
104-118 and the goroutine launch at line 120): stop the backend when
currently playing, enter buffering, read the video id at the current index
(a Go panic when out of range) and launch its stream resolution. -/
def startPlaying (bpos : Int) (ps : PlayState) (position : Int) :
    Except String (PlayState × List Eff) :=
  let effs0 : List Eff := if ps.State = State.playing then [Eff.bStop] else []
  match setPlayState bpos ps State.buffering position with
  | Except.error e => Except.error e
  | Except.ok (ps2, effs1) =>
    match elemAt ps2.Playlist ps2.Index with
    | none => Except.error "index out of range"
    | some videoId => Except.ok (ps2, effs0 ++ effs1 ++ [Eff.resolve videoId])

/-- `MediaPlayer.nextVideo` (`player.go` lines 159-175). -/
def nextVideo (bpos : Int) (ps : PlayState) : Except String (PlayState × List Eff) :=
  if ps.Index + 1 < (ps.Playlist.length : Int) then
    startPlaying bpos { ps with Index := ps.Index + 1, State := State.stopped } 0
  else
    setPlayState bpos ps State.stopped 0

/-- The re-entrant callback body inside `startPlaying`'s goroutine
(`player.go` lines 129-155), run under `getPlayState` once the stream URL for
`videoId` has been resolved: discard when stale, advance on an empty URL,
otherwise command the backend to play and launch the prefetch of the next
track. -/
def finishPlaying (bpos : Int) (videoId streamUrl : String) (position : Int)
    (ps : PlayState) : Except String (PlayState × List Eff) :=
  if ps.Video ≠ videoId then
    Except.ok (ps, [])
  else if streamUrl = "" then
    nextVideo bpos ps
  else
    let volume : Int := if ps.newVolume then ps.Volume else -1
    let ps2 := if ps.newVolume then { ps with newVolume := false } else ps
    Except.ok (ps2, [Eff.bPlay streamUrl position volume, Eff.spawnPrefetch ps2.NextVideo])

/-- The critical-section body of `MediaPlayer.prefetchVideoStream`
(`player.go` lines 181-198), together with the empty-id guard that precedes
the sleep: resolve the next track only when it is still the one this prefetch
was started for. -/
def prefetchVideoStream (videoId : String) (ps : PlayState) : PlayState × List Eff :=
  if videoId = "" then (ps, [])
  else
    let next := ps.NextVideo
    if next = "" ∨ next ≠ videoId then (ps, [])
    else (ps, [Eff.resolve next])

/-- The scan loop of `MediaPlayer.setPlaylistIndex` (`player.go` lines
264-274): find the first occurrence of `videoId`, keep scanning to detect a
duplicate (warn and break on the second hit).  `acc` is the Go `newIndex`
variable, with `-1` rendered as `none`. -/
def scanLoop (videoId : String) : List String → Nat → Option Nat → Option Nat × Bool
  | [], _, acc => (acc, false)
  | v :: rest, i, acc =>
    if v = videoId then
      match acc with
      | some j => (some j, true)
      | none => scanLoop videoId rest (i + 1) (some i)
    else scanLoop videoId rest (i + 1) acc

/-- `MediaPlayer.setPlaylistIndex` (`player.go` lines 263-284): relocate the
index of `videoId` in the (new) playlist; warn on a duplicate, panic when the
video does not occur at all. -/
def setPlaylistIndex (ps : PlayState) (videoId : String) :
    Except String (PlayState × List Eff) :=
  match scanLoop videoId ps.Playlist 0 none with
  | (none, _) => Except.error "current video does not exist in new playlist"
  | (some j, warned) =>
    Except.ok ({ ps with Index := (j : Int) }, if warned then [Eff.logWarning] else [])

/-- `MediaPlayer.updatePlaylist` (`player.go` lines 229-254). -/
def updatePlaylist (ps : PlayState) (playlist : List String) :
    Except String (PlayState × List Eff) :=
  let nextVid := ps.NextVideo
  let inner : Except String (PlayState × List Eff) :=
    if ps.Playlist.length = 0 then
      if ps.State = State.playing then Except.error "empty playlist while playing"
      else
        let ps2 := { ps with Playlist := playlist }
        let ps3 :=
          if ps2.Index ≥ (playlist.length : Int) then
            { ps2 with Index := (playlist.length : Int) - 1 }
          else ps2
        Except.ok (ps3, [])
    else
      match elemAt ps.Playlist ps.Index with
      | none => Except.error "index out of range"
      | some videoId => setPlaylistIndex { ps with Playlist := playlist } videoId
  match inner with
  | Except.error e => Except.error e
  | Except.ok (ps2, effs) =>
    if ps2.NextVideo ≠ nextVid then
      Except.ok (ps2, effs ++ [Eff.spawnPrefetch ps2.NextVideo])
    else Except.ok (ps2, effs)

/-- `MediaPlayer.stop` (`player.go` lines 408-414): clear the playlist and
stop the backend; `Index` is deliberately left untouched. -/
def stop (ps : PlayState) : PlayState × List Eff :=
  ({ ps with Playlist := [] }, [Eff.bStop])

/-- Fall-through branch of `MediaPlayer.SetPlaystate` (`player.go` lines
93-100): install the playlist and index, then start playing or stop. -/
def setPlaystateInstall (bpos : Int) (playlist : List String) (index position : Int)
    (ps : PlayState) : Except String (PlayState × List Eff) :=
  let ps2 := { ps with Playlist := playlist, Index := index }
  if 0 < ps2.Playlist.length then startPlaying bpos ps2 position
  else Except.ok (stop ps2)

/-- Critical-section body of `MediaPlayer.SetPlaystate` (`player.go` lines
86-102), including the buffering short-circuit guard (Go slice accesses in
the guard panic when out of range). -/
def SetPlaystate (bpos : Int) (playlist : List String) (index position : Int)
    (ps : PlayState) : Except String (PlayState × List Eff) :=
  if ps.State = State.buffering ∧ ps.bufferingPosition = position ∧
      ps.Index < (ps.Playlist.length : Int) then
    match elemAt playlist index with
    | none => Except.error "index out of range"
    | some a =>
      match elemAt ps.Playlist ps.Index with
      | none => Except.error "index out of range"
      | some b =>
        if a = b then updatePlaylist ps playlist
        else setPlaystateInstall bpos playlist index position ps
  else setPlaystateInstall bpos playlist index position ps

/-- Critical-section body of `MediaPlayer.SetVideo` (`player.go` lines
256-261). -/
def SetVideo (bpos : Int) (videoId : String) (position : Int) (ps : PlayState) :
    Except String (PlayState × List Eff) :=
  match setPlaylistIndex ps videoId with
  | Except.error e => Except.error e
  | Except.ok (ps2, effs) =>
    match startPlaying bpos ps2 position with
    | Except.error e => Except.error e
    | Except.ok (ps3, effs2) => Except.ok (ps3, effs ++ effs2)

/-- Critical-section body of `MediaPlayer.Pause` (`player.go` lines 311-321). -/
def Pause (ps : PlayState) : PlayState × List Eff :=
  if ps.State = State.seeking then ({ ps with nextState := some State.paused }, [])
  else if ps.State ≠ State.playing then (ps, [Eff.logWarning])
  else (ps, [Eff.bPause])

/-- Critical-section body of `MediaPlayer.Play` (`player.go` lines 324-345). -/
def Play (bpos : Int) (ps : PlayState) : Except String (PlayState × List Eff) :=
  if ps.State = State.stopped then
    if ps.Index ≥ (ps.Playlist.length : Int) then Except.ok (ps, [Eff.logWarning])
    else startPlaying bpos ps 0
  else if ps.State = State.seeking then
    Except.ok ({ ps with nextState := some State.playing }, [])
  else if ps.State ≠ State.paused then Except.ok (ps, [Eff.logWarning])
  else Except.ok (ps, [Eff.bResume])

/-- Critical-section body of `MediaPlayer.Seek` (`player.go` lines 348-359). -/
def Seek (bpos : Int) (position : Int) (ps : PlayState) :
    Except String (PlayState × List Eff) :=
  if ps.State = State.stopped then startPlaying bpos ps position
  else if ps.State = State.paused ∨ ps.State = State.playing then
    match setPlayState bpos ps State.seeking position with
    | Except.error e => Except.error e
    | Except.ok (ps2, effs) => Except.ok (ps2, effs ++ [Eff.bSetPosition position])
  else Except.ok (ps, [Eff.logWarning])

/-- `MediaPlayer.applyVolume` (`player.go` lines 386-393). -/
def applyVolume (ps : PlayState) : PlayState × List Eff :=
  if ps.State = State.playing ∨ ps.State = State.paused then
    (ps, [Eff.bSetVolume ps.Volume, Eff.volumeReply ps.Volume])
  else ({ ps with newVolume := true }, [Eff.volumeReply ps.Volume])

/-- Critical-section body of `MediaPlayer.SetVolume` (`player.go` lines
362-367): store the requested value (no clamping in the source) and apply. -/
def SetVolume (volume : Int) (ps : PlayState) : PlayState × List Eff :=
  applyVolume { ps with Volume := volume }

/-- Critical-section body of `MediaPlayer.ChangeVolume` (`player.go` lines
370-384): add the delta, clamp into `[0,100]`, apply. -/
def ChangeVolume (delta : Int) (ps : PlayState) : PlayState × List Eff :=
  let v := ps.Volume + delta
  let v := if v < 0 then 0 else v
  let v := if v > 100 then 100 else v
  applyVolume { ps with Volume := v }

/-- Critical-section body of `MediaPlayer.RequestPlaylist` (`player.go`
lines 292-308). -/
def RequestPlaylist (bpos : Int) (ps : PlayState) : Except String (PlayState × List Eff) :=
  match getPosition bpos ps with
  | Except.error e => Except.error e
  | Except.ok pos =>
    Except.ok (ps, [Eff.playlistReply ps.Playlist ps.Index pos ps.State])

/-- Critical-section body of `MediaPlayer.RequestVolume` (`player.go` lines
397-406). -/
def RequestVolume (ps : PlayState) : PlayState × List Eff :=
  (ps, [Eff.volumeReply ps.Volume])

/-- Critical-section body of `MediaPlayer.Quit` (`player.go` lines 38-43). -/
def Quit (ps : PlayState) : PlayState × List Eff :=
  (ps, [Eff.bQuit])

/-- Body of the `STATE_PLAYING` case of the run-loop event switch
(`player.go` lines 450-471), after the pending-volume application: `ps` is
the play state with `newVolume` already cleared and `effs0` the backend
volume command possibly issued by it. -/
def handlePlaying (bpos : Int) (ps : PlayState) (effs0 : List Eff) :
    Except String (PlayState × List Eff) :=
  if ps.State = State.seeking then
    match ps.nextState with
    | some ns =>
      if ps.previousState ≠ ns then
        let ps2 := { ps with State := ps.previousState, nextState := none }
        match ns with
        | State.playing => Except.ok (ps2, effs0 ++ [Eff.bResume])
        | State.paused => Except.ok (ps2, effs0 ++ [Eff.bPause])
        | _ => Except.error "unknown nextState"
      else
        match setPlayState bpos ps ps.previousState (-1) with
        | Except.error e => Except.error e
        | Except.ok (ps2, effs) => Except.ok (ps2, effs0 ++ effs)
    | none =>
      match setPlayState bpos ps ps.previousState (-1) with
      | Except.error e => Except.error e
      | Except.ok (ps2, effs) => Except.ok (ps2, effs0 ++ effs)
  else
    match setPlayState bpos ps State.playing (-1) with
    | Except.error e => Except.error e
    | Except.ok (ps2, effs) => Except.ok (ps2, effs0 ++ effs)

/-- The backend-event handler of `MediaPlayer.run` (`player.go` lines
443-491), for one event received from the player event channel. -/
def handleEvent (bpos : Int) (ps : PlayState) (event : State) :
    Except String (PlayState × List Eff) :=
  match event with
  | State.playing =>
    if ps.newVolume then
      handlePlaying bpos { ps with newVolume := false } [Eff.bSetVolume ps.Volume]
    else
      handlePlaying bpos ps []
  | State.paused =>
    if ps.State = State.buffering then Except.ok (ps, [])
    else setPlayState bpos ps State.paused (-1)
  | State.stopped =>
    if ps.State = State.buffering then Except.ok (ps, [])
    else nextVideo bpos ps
  | _ => Except.ok (ps, [])

/-- One serialized access to the play state: a command from the public API, a
background-task result rejoining, or a backend event handled by the run loop. -/
inductive Cmd where
  | setPlaystate (playlist : List String) (index position : Int)
  | updatePlaylistC (playlist : List String)
  | setVideo (videoId : String) (position : Int)
  | play
  | pause
  | seek (position : Int)
  | stopC
  | setVolumeC (volume : Int)
  | changeVolumeC (delta : Int)
  | requestPlaylist
  | requestVolume
  | quit
  | finish (videoId streamUrl : String) (position : Int)
  | prefetchCb (videoId : String)
  | backendEvent (e : State)
deriving DecidableEq, Repr

/-- Dispatch of a serialized access to the handler bodies above. -/
def step (bpos : Int) (c : Cmd) (ps : PlayState) : Except String (PlayState × List Eff) :=
  match c with
  | Cmd.setPlaystate pl i pos => SetPlaystate bpos pl i pos ps
  | Cmd.updatePlaylistC pl => updatePlaylist ps pl
  | Cmd.setVideo v pos => SetVideo bpos v pos ps
  | Cmd.play => Play bpos ps
  | Cmd.pause => Except.ok (Pause ps)
  | Cmd.seek pos => Seek bpos pos ps
  | Cmd.stopC => Except.ok (stop ps)
  | Cmd.setVolumeC v => Except.ok (SetVolume v ps)
  | Cmd.changeVolumeC d => Except.ok (ChangeVolume d ps)
  | Cmd.requestPlaylist => RequestPlaylist bpos ps
  | Cmd.requestVolume => Except.ok (RequestVolume ps)
  | Cmd.quit => Except.ok (Quit ps)
  | Cmd.finish v url pos => finishPlaying bpos v url pos ps
  | Cmd.prefetchCb v => Except.ok (prefetchVideoStream v ps)
  | Cmd.backendEvent e => handleEvent bpos ps e

/-- `MediaPlayer.getPlayState` (`player.go` lines 74-82): when the play-state
channel has been closed by the run loop (the coordinator shut down), the
receive reports `ok = false` and the callback is never run, so the call is a
silent no-op. -/
def getPlayState (opn : Bool) (ps : PlayState)
    (callback : PlayState → Except String (PlayState × List Eff)) :
    Except String (PlayState × List Eff) :=
  if opn then callback ps else Except.ok (ps, [])

/-- A public API call: the handler body wrapped in `getPlayState`; `opn` is
whether the coordinator is still running (`player.go` lines 435-441 close the
channel on shutdown). -/
def apiCall (opn : Bool) (bpos : Int) (c : Cmd) (ps : PlayState) :
    Except String (PlayState × List Eff) :=
  getPlayState opn ps (step bpos c)

/-- Run a trace of serialized accesses (each with its backend-reported
position) from a starting state, stopping at the first panic. -/
def runTrace (ps : PlayState) : List (Cmd × Int) → Except String PlayState
  | [] => Except.ok ps
  | (c, b) :: rest =>
    match step b c ps with
    | Except.error e => Except.error e
    | Except.ok (ps2, _) => runTrace ps2 rest

/-- A volume command whose argument is admissible: an absolute set within
`[0,100]`, or any relative delta. -/
def volCmdOK : Cmd → Bool
  | Cmd.setVolumeC v => decide (0 ≤ v) && decide (v ≤ 100)
  | Cmd.changeVolumeC _ => true
  | _ => false

/-- Every position carried by a command is non-negative (positions are
`time.Duration` values supplied by callers; the backend reports non-negative
positions per its contract). -/
def posOK : Cmd → Bool
  | Cmd.setPlaystate _ _ pos => decide (0 ≤ pos)
  | Cmd.setVideo _ pos => decide (0 ≤ pos)
  | Cmd.seek pos => decide (0 ≤ pos)
  | _ => true

/-- A trace whose backend-reported positions and command positions are all
non-negative. -/
def traceOK (tr : List (Cmd × Int)) : Bool :=
  tr.all fun cb => decide (0 ≤ cb.2) && posOK cb.1

/-- The buffering-position invariant that actually holds of the code: the
position to resume at is non-negative whenever the player is buffering or
seeking. -/
def bufferingPosOK (ps : PlayState) : Prop :=
  ps.State = State.buffering ∨ ps.State = State.seeking → 0 ≤ ps.bufferingPosition

/-- A concrete play state used to instantiate theorems: paused at the first
of two tracks. -/
def psPausedAB : PlayState :=
  { Playlist := ["a", "b"]
    Index := 0
    State := State.paused
    Volume := 80
    bufferingPosition := -1
    previousState := State.playing
    nextState := none
    newVolume := false }

/-- A concrete play state used to instantiate theorems: playing the second
of three tracks. -/
def psPlayingB : PlayState :=
  { Playlist := ["a", "b", "c"]
    Index := 1
    State := State.playing
    Volume := 80
    bufferingPosition := -1
    previousState := State.buffering
    nextState := none
    newVolume := false }

/-- The trace refuting the only-if direction of the buffering-position claim:
queue one track, resolve it, let it start playing, seek to position 5, press
pause while the seek is in flight, then receive the seek-complete event. -/
def traceC2 : List (Cmd × Int) :=
  [ (Cmd.setPlaystate ["a"] 0 0, 0)
  , (Cmd.finish "a" "http://u" 0, 0)
  , (Cmd.backendEvent State.playing, 0)
  , (Cmd.seek 5, 0)
  , (Cmd.pause, 0)
  , (Cmd.backendEvent State.playing, 0) ]

/-- The play state reached by `traceC2`: playing, yet with a stale
buffering position left over from the completed seek. -/
def psAfterC2 : PlayState :=
  { Playlist := ["a"]
    Index := 0
    State := State.playing
    Volume := 80
    bufferingPosition := 5
    previousState := State.playing
    nextState := none
    newVolume := false }

/-- A trace of volume commands all of whose absolute sets are in range. -/
def traceC1 : List (Cmd × Int) :=
  [(Cmd.setVolumeC 30, 0), (Cmd.changeVolumeC 200, 0), (Cmd.changeVolumeC (-500), 0)]

/-- The play state reached by `traceC1` from the initial state. -/
def psAfterC1 : PlayState :=
  { Playlist := []
    Index := 0
    State := State.stopped
    Volume := 0
    bufferingPosition := 0
    previousState := State.stopped
    nextState := none
    newVolume := true }

/-- A trace that leaves the player buffering: queue one track at position 7. -/
def traceC2W : List (Cmd × Int) :=
  [(Cmd.setPlaystate ["a"] 0 7, 0)]

/-- The play state reached by `traceC2W` from the initial state. -/
def psAfterC2W : PlayState :=
  { Playlist := ["a"]
    Index := 0
    State := State.buffering
    Volume := 80
    bufferingPosition := 7
    previousState := State.stopped
    nextState := none
    newVolume := false }

/-- A trace that leaves a resolution of the current track pending while a
seek is in flight: queue track a twice (launching two resolutions of it),
let the first resolution start playback, then seek to 7. -/
def traceC3 : List (Cmd × Int) :=
  [ (Cmd.setPlaystate ["a"] 0 0, 0)
  , (Cmd.setPlaystate ["a"] 0 3, 0)
  , (Cmd.finish "a" "http://u" 3, 0)
  , (Cmd.backendEvent State.playing, 0)
  , (Cmd.seek 7, 0) ]

/-- The play state reached by `traceC3`: seeking to 7 on the last (only)
track while a second resolution of that track is still outstanding. -/
def psSeekC3 : PlayState :=
  { Playlist := ["a"]
    Index := 0
    State := State.seeking
    Volume := 80
    bufferingPosition := 7
    previousState := State.playing
    nextState := none
    newVolume := false }

/-- The play state produced when the outstanding resolution of the current
(last) track returns an empty URL in `psSeekC3`: stopped, with the Stopped
event having carried the pending seek position 7 instead of 0. -/
def psStopC3 : PlayState :=
  { Playlist := ["a"]
    Index := 0
    State := State.stopped
    Volume := 80
    bufferingPosition := -1
    previousState := State.seeking
    nextState := none
    newVolume := false }

/-- A trace that reaches the empty-playlist-while-Playing window: queue a
track, let it start playing, then Stop (which clears the playlist but leaves
the state Playing until the backend reports stopped). -/
def traceC5 : List (Cmd × Int) :=
  [ (Cmd.setPlaystate ["a"] 0 0, 0)
  , (Cmd.finish "a" "http://u" 0, 0)
  , (Cmd.backendEvent State.playing, 0)
  , (Cmd.stopC, 0) ]

/-- The play state reached by `traceC5`: playlist empty, state still
Playing. -/
def psEmptyPlayingC5 : PlayState :=
  { Playlist := []
    Index := 0
    State := State.playing
    Volume := 80
    bufferingPosition := -1
    previousState := State.buffering
    nextState := none
    newVolume := false }

/-! ## General lemmas -/

theorem elemAt_none_of_ge {l : List String} {i : Int}
    (h : (l.length : Int) ≤ i) : elemAt l i = none := by
  unfold elemAt
  rw [if_neg (by omega)]
  exact List.get?_eq_none.mpr (by omega)

theorem applyVolume_Volume (ps : PlayState) :
    (applyVolume ps).1.Volume = ps.Volume := by
  unfold applyVolume
  split <;> rfl

/-! ## Claim theorems -/

/-- C10: the stop operation replaces the playlist with the empty list and
issues a backend stop; every other field of the play state, in particular
`Index`, keeps its old value. -/
theorem stop_clears_playlist_keeps_index (ps : PlayState) :
    (stop ps).1.Playlist = [] ∧
    (stop ps).1.Index = ps.Index ∧
    (stop ps).1.State = ps.State ∧
    (stop ps).1.Volume = ps.Volume ∧
    (stop ps).1.bufferingPosition = ps.bufferingPosition ∧
    (stop ps).1.previousState = ps.previousState ∧
    (stop ps).1.nextState = ps.nextState ∧
    (stop ps).1.newVolume = ps.newVolume ∧
    (stop ps).2 = [Eff.bStop] := by
  unfold stop
  exact ⟨rfl, rfl, rfl, rfl, rfl, rfl, rfl, rfl, rfl⟩

/-- C8: after the coordinator has shut down (the play-state channel is
closed), every public operation requesting play-state access returns without
error, without mutating the state, and without emitting any effect. -/
theorem closed_coordinator_noop (c : Cmd) (bpos : Int) (ps : PlayState) :
    apiCall false bpos c ps = Except.ok (ps, []) := by
  rfl

/-- C7: a completed background stream resolution whose video id no longer
equals the id at the current playlist index is discarded without changing the
play state and without any backend command or event; likewise a prefetch
result whose next-track id has changed is discarded. -/
theorem stale_resolution_discarded (bpos : Int) (videoId streamUrl : String)
    (position : Int) (prefetchId : String) (ps : PlayState)
    (h : ps.Video ≠ videoId) (h2 : ps.NextVideo ≠ prefetchId) :
    finishPlaying bpos videoId streamUrl position ps = Except.ok (ps, []) ∧
    prefetchVideoStream prefetchId ps = (ps, []) := by
  constructor
  · unfold finishPlaying
    rw [if_pos h]
  · unfold prefetchVideoStream
    split
    · rfl
    · rw [if_pos (Or.inr h2)]

theorem stale_resolution_discarded_witness :
    psPlayingB.Video ≠ "x" ∧ psPlayingB.NextVideo ≠ "y" ∧
    (finishPlaying 0 "x" "http://u" 3 psPlayingB = Except.ok (psPlayingB, []) ∧
      prefetchVideoStream "y" psPlayingB = (psPlayingB, [])) :=
  ⟨by decide, by decide,
    stale_resolution_discarded 0 "x" "http://u" 3 "y" psPlayingB (by decide) (by decide)⟩

/-- C9: with the player stopped and the index at or past the playlist length
(in particular an empty playlist), `Seek` reaches the unchecked
`Playlist[Index]` access in `startPlaying` and panics, whereas `Play` checks
the index first and ignores the call with a warning. -/
theorem seek_stopped_panics_play_warns (bpos position : Int) (ps : PlayState)
    (hstop : ps.State = State.stopped)
    (hidx : (ps.Playlist.length : Int) ≤ ps.Index) :
    (∃ msg, Seek bpos position ps = Except.error msg) ∧
    Play bpos ps = Except.ok (ps, [Eff.logWarning]) := by
  constructor
  · unfold Seek startPlaying setPlayState getPosition
    rw [if_pos hstop]
    simp only [hstop]
    by_cases hpos : position = -1
    · subst hpos
      simp only [if_neg (by decide : ¬ (State.stopped = State.seeking)),
        reduceIte]
      exact ⟨_, rfl⟩
    · simp only [if_neg (by decide : ¬ (State.stopped = State.seeking)),
        if_neg hpos]
      rw [elemAt_none_of_ge hidx]
      exact ⟨_, rfl⟩
  · unfold Play
    rw [if_pos hstop, if_pos (by omega : ps.Index ≥ (ps.Playlist.length : Int))]

theorem seek_stopped_panics_play_warns_witness :
    (initialState 80).State = State.stopped ∧
    ((initialState 80).Playlist.length : Int) ≤ (initialState 80).Index ∧
    ((∃ msg, Seek 0 5 (initialState 80) = Except.error msg) ∧
      Play 0 (initialState 80) = Except.ok (initialState 80, [Eff.logWarning])) :=
  ⟨by decide, by decide,
    seek_stopped_panics_play_warns 0 5 (initialState 80) (by decide) (by decide)⟩

/-- C5 counterexample: the empty-playlist-while-Playing window is reachable
(Stop during playback clears the playlist but leaves the state Playing until
the backend reports stopped); a playlist update performed in that window
panics at the `empty playlist while playing` guard instead of installing the
new playlist. -/
theorem updatePlaylist_empty_playing_cex :
    runTrace (initialState 80) traceC5 = Except.ok psEmptyPlayingC5 ∧
    psEmptyPlayingC5.Playlist = [] ∧
    psEmptyPlayingC5.State = State.playing ∧
    updatePlaylist psEmptyPlayingC5 ["b"] =
      Except.error "empty playlist while playing" ∧
    runTrace (initialState 80) (traceC5 ++ [(Cmd.updatePlaylistC ["b"], 0)]) =
      Except.error "empty playlist while playing" :=
  ⟨by rfl, rfl, rfl, by rfl, by rfl⟩

/-- C5 amended: a playlist update while the current playlist is empty and the
state is not Playing installs the new playlist, and an out-of-range
remembered index is clamped to the last valid index `len - 1`, not to zero;
an in-range remembered index is kept.  (In the reachable empty-while-Playing
window after a Stop during playback, the update panics instead.) -/
theorem updatePlaylist_empty_installs_and_clamps (ps : PlayState) (pl : List String)
    (hemp : ps.Playlist = []) (hnp : ps.State ≠ State.playing) :
    ∃ effs,
      updatePlaylist ps pl =
        Except.ok
          ({ ps with
              Playlist := pl
              Index :=
                if (pl.length : Int) ≤ ps.Index then (pl.length : Int) - 1
                else ps.Index }, effs) := by
  unfold updatePlaylist
  by_cases hc : (pl.length : Int) ≤ ps.Index <;>
    simp [hemp, hnp, hc, ge_iff_le] <;>
    split <;> exact ⟨_, rfl⟩

theorem updatePlaylist_empty_installs_and_clamps_witness :
    (initialState 80 : PlayState).Playlist = [] ∧
    (initialState 80 : PlayState).State ≠ State.playing ∧
    ∃ effs,
      updatePlaylist (initialState 80) ["a", "b"] =
        Except.ok
          ({ initialState 80 with
              Playlist := ["a", "b"]
              Index :=
                if ((["a", "b"] : List String).length : Int) ≤ (initialState 80).Index
                then ((["a", "b"] : List String).length : Int) - 1
                else (initialState 80).Index }, effs) :=
  ⟨rfl, by decide, updatePlaylist_empty_installs_and_clamps (initialState 80) ["a", "b"] rfl (by decide)⟩

theorem SetVolume_Volume (v : Int) (ps : PlayState) :
    (SetVolume v ps).1.Volume = v := by
  unfold SetVolume
  rw [applyVolume_Volume]

theorem ChangeVolume_bounds (d : Int) (ps : PlayState) :
    0 ≤ (ChangeVolume d ps).1.Volume ∧ (ChangeVolume d ps).1.Volume ≤ 100 := by
  unfold ChangeVolume
  rw [applyVolume_Volume]
  dsimp only
  split <;> split <;> omega

/-- C1 counterexample: `SetVolume` stores its argument without clamping, so
the single-command sequence `SetVolume 150` drives the volume to 150, outside
`[0,100]`. -/
theorem setVolume_no_clamp_cex :
    (SetVolume 150 (initialState 80)).1.Volume = 150 ∧
    ¬ (SetVolume 150 (initialState 80)).1.Volume ≤ 100 := by
  decide

/-- C1 amended: `ChangeVolume` clamps into `[0,100]`; `SetVolume` stores the
requested value unclamped, so the volume stays within `[0,100]` after every
sequence of volume commands whose absolute sets are themselves within
`[0,100]`, starting from a volume in range. -/
theorem volume_in_range (tr : List (Cmd × Int)) (ps ps' : PlayState)
    (h0 : 0 ≤ ps.Volume) (h100 : ps.Volume ≤ 100)
    (hcmds : ∀ cb ∈ tr, volCmdOK cb.1 = true)
    (hrun : runTrace ps tr = Except.ok ps') :
    0 ≤ ps'.Volume ∧ ps'.Volume ≤ 100 := by
  induction tr generalizing ps with
  | nil =>
    cases hrun
    exact ⟨h0, h100⟩
  | cons cb rest ih =>
    obtain ⟨c, b⟩ := cb
    have hc : volCmdOK c = true := hcmds (c, b) (List.mem_cons_self _ _)
    match c, hc with
    | Cmd.setVolumeC v, hc =>
      have hv : 0 ≤ v ∧ v ≤ 100 := by
        unfold volCmdOK at hc
        simpa using hc
      simp only [runTrace, step] at hrun
      refine ih (SetVolume v ps).1 ?_ ?_ ?_ ?_
      · rw [SetVolume_Volume]; exact hv.1
      · rw [SetVolume_Volume]; exact hv.2
      · exact fun cb2 h2 => hcmds cb2 (List.mem_cons_of_mem _ h2)
      · exact hrun
    | Cmd.changeVolumeC d, hc =>
      simp only [runTrace, step] at hrun
      refine ih (ChangeVolume d ps).1 ?_ ?_ ?_ ?_
      · exact (ChangeVolume_bounds d ps).1
      · exact (ChangeVolume_bounds d ps).2
      · exact fun cb2 h2 => hcmds cb2 (List.mem_cons_of_mem _ h2)
      · exact hrun

theorem volume_in_range_witness :
    0 ≤ (initialState 80).Volume ∧ (initialState 80).Volume ≤ 100 ∧
    (∀ cb ∈ traceC1, volCmdOK cb.1 = true) ∧
    runTrace (initialState 80) traceC1 = Except.ok psAfterC1 ∧
    (0 ≤ psAfterC1.Volume ∧ psAfterC1.Volume ≤ 100) :=
  ⟨by decide, by decide, by decide, by rfl,
    volume_in_range traceC1 (initialState 80) psAfterC1 (by decide) (by decide)
      (by decide) (by rfl)⟩

/-- C2 counterexample: queue a track, let it play, seek to 5, press pause
while the seek is in flight, then receive the seek-complete event.  The
handler restores the playing state directly and leaves `bufferingPosition`
at 5, so after this backend-event handler completes the state is `Playing`
while `bufferingPosition` still holds a non-negative value instead of -1. -/
theorem bufferingPosition_stale_cex :
    runTrace (initialState 80) traceC2 = Except.ok psAfterC2 ∧
    psAfterC2.State = State.playing ∧
    psAfterC2.bufferingPosition = 5 := by
  exact ⟨by rfl, rfl, rfl⟩

/-! ## Preservation of the buffering-position invariant -/

theorem bufOK_frame {ps ps' : PlayState} (h1 : ps'.State = ps.State)
    (h2 : ps'.bufferingPosition = ps.bufferingPosition)
    (hI : bufferingPosOK ps) : bufferingPosOK ps' := by
  intro hbs
  rw [h2]
  exact hI (h1 ▸ hbs)

theorem okE {p ps' : PlayState} {l effs : List Eff}
    (h : (Except.ok (p, l) : Except String (PlayState × List Eff)) = Except.ok (ps', effs)) :
    p = ps' := by
  injection h with h1
  exact congrArg Prod.fst h1

theorem setPlayState_ok_inv {bpos : Int} {ps : PlayState} {state : State}
    {position : Int} {ps' : PlayState} {effs : List Eff}
    (h : setPlayState bpos ps state position = Except.ok (ps', effs)) :
    ps' = { ps with
            previousState := ps.State
            State := state
            bufferingPosition :=
              if state = State.buffering ∨ state = State.seeking then
                (if ps.State = State.seeking then ps.bufferingPosition else position)
              else -1 } := by
  unfold setPlayState at h
  dsimp only at h
  split at h
  · exact absurd h (by simp)
  · simp only [Except.ok.injEq, Prod.mk.injEq] at h
    exact h.1.symm

theorem setPlayState_bufOK {bpos : Int} {ps : PlayState} {state : State}
    {position : Int} {ps' : PlayState} {effs : List Eff}
    (hI : bufferingPosOK ps)
    (hpos : state = State.buffering ∨ state = State.seeking →
      ps.State = State.seeking ∨ 0 ≤ position)
    (h : setPlayState bpos ps state position = Except.ok (ps', effs)) :
    bufferingPosOK ps' := by
  have hinv := setPlayState_ok_inv h
  subst hinv
  intro hbs
  have hbs2 : state = State.buffering ∨ state = State.seeking := hbs
  show 0 ≤ if state = State.buffering ∨ state = State.seeking then
    (if ps.State = State.seeking then ps.bufferingPosition else position) else -1
  rw [if_pos hbs2]
  by_cases hsk : ps.State = State.seeking
  · rw [if_pos hsk]
    exact hI (Or.inr hsk)
  · rw [if_neg hsk]
    rcases hpos hbs2 with hc | hc
    · exact absurd hc hsk
    · exact hc

theorem startPlaying_ok_inv {bpos : Int} {ps : PlayState} {position : Int}
    {ps' : PlayState} {effs : List Eff}
    (h : startPlaying bpos ps position = Except.ok (ps', effs)) :
    ∃ effs1, setPlayState bpos ps State.buffering position = Except.ok (ps', effs1) := by
  unfold startPlaying at h
  dsimp only at h
  split at h
  · exact absurd h (by simp)
  · rename_i ps2 effs1 heq
    split at h
    · exact absurd h (by simp)
    · simp only [Except.ok.injEq, Prod.mk.injEq] at h
      obtain ⟨hq, -⟩ := h
      subst hq
      exact ⟨effs1, heq⟩

theorem startPlaying_bufOK {bpos : Int} {ps : PlayState} {position : Int}
    {ps' : PlayState} {effs : List Eff}
    (hI : bufferingPosOK ps) (hpos : 0 ≤ position)
    (h : startPlaying bpos ps position = Except.ok (ps', effs)) :
    bufferingPosOK ps' := by
  obtain ⟨effs1, heq⟩ := startPlaying_ok_inv h
  exact setPlayState_bufOK hI (fun _ => Or.inr hpos) heq

theorem nextVideo_bufOK {bpos : Int} {ps ps' : PlayState} {effs : List Eff}
    (hI : bufferingPosOK ps)
    (h : nextVideo bpos ps = Except.ok (ps', effs)) : bufferingPosOK ps' := by
  unfold nextVideo at h
  split at h
  · refine startPlaying_bufOK ?_ (le_refl 0) h
    intro hbs
    rcases hbs with hc | hc <;> simp at hc
  · exact setPlayState_bufOK hI (fun hbs => absurd hbs (by decide)) h

theorem setPlaylistIndex_frame {ps : PlayState} {videoId : String}
    {ps' : PlayState} {effs : List Eff}
    (h : setPlaylistIndex ps videoId = Except.ok (ps', effs)) :
    ps'.State = ps.State ∧ ps'.bufferingPosition = ps.bufferingPosition := by
  unfold setPlaylistIndex at h
  split at h
  · exact absurd h (by simp)
  · simp only [Except.ok.injEq, Prod.mk.injEq] at h
    obtain ⟨hq, -⟩ := h
    subst hq
    exact ⟨rfl, rfl⟩

theorem updatePlaylist_frame {ps : PlayState} {pl : List String}
    {ps' : PlayState} {effs : List Eff}
    (h : updatePlaylist ps pl = Except.ok (ps', effs)) :
    ps'.State = ps.State ∧ ps'.bufferingPosition = ps.bufferingPosition := by
  unfold updatePlaylist at h
  dsimp only at h
  split at h
  · exact absurd h (by simp)
  · rename_i ps2 effs1 heq
    have hps : ps' = ps2 := by
      split at h <;>
        · simp only [Except.ok.injEq, Prod.mk.injEq] at h
          exact h.1.symm
    subst hps
    split at heq
    · split at heq
      · exact absurd heq (by simp)
      · simp only [Except.ok.injEq, Prod.mk.injEq] at heq
        obtain ⟨hq, -⟩ := heq
        subst hq
        split <;> exact ⟨rfl, rfl⟩
    · split at heq
      · exact absurd heq (by simp)
      · have hf := setPlaylistIndex_frame heq
        exact hf

theorem setPlaystateInstall_bufOK {bpos : Int} {pl : List String}
    {i position : Int} {ps ps' : PlayState} {effs : List Eff}
    (hI : bufferingPosOK ps) (hpos : 0 ≤ position)
    (h : setPlaystateInstall bpos pl i position ps = Except.ok (ps', effs)) :
    bufferingPosOK ps' := by
  unfold setPlaystateInstall at h
  dsimp only at h
  split at h
  · refine startPlaying_bufOK ?_ hpos h
    exact hI
  · simp only [stop, Except.ok.injEq, Prod.mk.injEq] at h
    obtain ⟨hq, -⟩ := h
    subst hq
    exact hI

theorem handlePlaying_bufOK {bpos : Int} {ps : PlayState} {effs0 : List Eff}
    {ps' : PlayState} {effs : List Eff}
    (hI : bufferingPosOK ps)
    (h : handlePlaying bpos ps effs0 = Except.ok (ps', effs)) :
    bufferingPosOK ps' := by
  unfold handlePlaying at h
  dsimp only at h
  split at h
  · rename_i hseek
    split at h
    · rename_i ns hns
      split at h
      · split at h
        · simp only [Except.ok.injEq, Prod.mk.injEq] at h
          obtain ⟨hq, -⟩ := h
          subst hq
          intro _
          exact hI (Or.inr hseek)
        · simp only [Except.ok.injEq, Prod.mk.injEq] at h
          obtain ⟨hq, -⟩ := h
          subst hq
          intro _
          exact hI (Or.inr hseek)
        · exact absurd h (by simp)
      · split at h
        · exact absurd h (by simp)
        · rename_i ps2 effs1 heq
          simp only [Except.ok.injEq, Prod.mk.injEq] at h
          obtain ⟨hq, -⟩ := h
          subst hq
          exact setPlayState_bufOK hI (fun _ => Or.inl hseek) heq
    · split at h
      · exact absurd h (by simp)
      · rename_i ps2 effs1 heq
        simp only [Except.ok.injEq, Prod.mk.injEq] at h
        obtain ⟨hq, -⟩ := h
        subst hq
        exact setPlayState_bufOK hI (fun _ => Or.inl hseek) heq
  · split at h
    · exact absurd h (by simp)
    · rename_i ps2 effs1 heq
      simp only [Except.ok.injEq, Prod.mk.injEq] at h
      obtain ⟨hq, -⟩ := h
      subst hq
      exact setPlayState_bufOK hI (fun hbs => absurd hbs (by decide)) heq

theorem step_bufOK {b : Int} {c : Cmd} {ps ps' : PlayState} {effs : List Eff}
    (hposc : posOK c = true) (hI : bufferingPosOK ps)
    (h : step b c ps = Except.ok (ps', effs)) : bufferingPosOK ps' := by
  cases c with
  | setPlaystate pl i pos =>
    have hpos : 0 ≤ pos := by simpa [posOK] using hposc
    simp only [step] at h
    unfold SetPlaystate at h
    split at h
    · split at h
      · exact absurd h (by simp)
      · split at h
        · exact absurd h (by simp)
        · split at h
          · have hf := updatePlaylist_frame h
            exact bufOK_frame hf.1 hf.2 hI
          · exact setPlaystateInstall_bufOK hI hpos h
    · exact setPlaystateInstall_bufOK hI hpos h
  | updatePlaylistC pl =>
    simp only [step] at h
    have hf := updatePlaylist_frame h
    exact bufOK_frame hf.1 hf.2 hI
  | setVideo v pos =>
    have hpos : 0 ≤ pos := by simpa [posOK] using hposc
    simp only [step] at h
    unfold SetVideo at h
    split at h
    · exact absurd h (by simp)
    · rename_i ps2 effs1 heq
      split at h
      · exact absurd h (by simp)
      · rename_i ps3 effs2 heq2
        simp only [Except.ok.injEq, Prod.mk.injEq] at h
        obtain ⟨hq, -⟩ := h
        subst hq
        have hf := setPlaylistIndex_frame heq
        exact startPlaying_bufOK (bufOK_frame hf.1 hf.2 hI) hpos heq2
  | play =>
    simp only [step] at h
    unfold Play at h
    split at h
    · split at h
      · simp only [Except.ok.injEq, Prod.mk.injEq] at h
        obtain ⟨hq, -⟩ := h
        subst hq
        exact hI
      · exact startPlaying_bufOK hI (le_refl 0) h
    · split at h
      · simp only [Except.ok.injEq, Prod.mk.injEq] at h
        obtain ⟨hq, -⟩ := h
        subst hq
        exact hI
      · split at h <;>
          · simp only [Except.ok.injEq, Prod.mk.injEq] at h
            obtain ⟨hq, -⟩ := h
            subst hq
            exact hI
  | pause =>
    simp only [step] at h
    unfold Pause at h
    split at h
    · have hq := okE h
      subst hq
      exact hI
    · split at h <;>
        · have hq := okE h
          subst hq
          exact hI
  | seek pos =>
    have hpos : 0 ≤ pos := by simpa [posOK] using hposc
    simp only [step] at h
    unfold Seek at h
    split at h
    · exact startPlaying_bufOK hI hpos h
    · split at h
      · split at h
        · exact absurd h (by simp)
        · rename_i ps2 effs1 heq
          simp only [Except.ok.injEq, Prod.mk.injEq] at h
          obtain ⟨hq, -⟩ := h
          subst hq
          exact setPlayState_bufOK hI (fun _ => Or.inr hpos) heq
      · simp only [Except.ok.injEq, Prod.mk.injEq] at h
        obtain ⟨hq, -⟩ := h
        subst hq
        exact hI
  | stopC =>
    simp only [step, stop, Except.ok.injEq, Prod.mk.injEq] at h
    obtain ⟨hq, -⟩ := h
    subst hq
    exact hI
  | setVolumeC v =>
    simp only [step] at h
    unfold SetVolume applyVolume at h
    simp only [Except.ok.injEq] at h
    split at h <;>
      · simp only [Prod.mk.injEq] at h
        obtain ⟨hq, -⟩ := h
        subst hq
        exact hI
  | changeVolumeC d =>
    simp only [step] at h
    unfold ChangeVolume applyVolume at h
    dsimp only at h
    simp only [Except.ok.injEq] at h
    split at h <;>
      · simp only [Prod.mk.injEq] at h
        obtain ⟨hq, -⟩ := h
        subst hq
        exact hI
  | requestPlaylist =>
    simp only [step] at h
    unfold RequestPlaylist at h
    split at h
    · exact absurd h (by simp)
    · simp only [Except.ok.injEq, Prod.mk.injEq] at h
      obtain ⟨hq, -⟩ := h
      subst hq
      exact hI
  | requestVolume =>
    simp only [step, RequestVolume, Except.ok.injEq, Prod.mk.injEq] at h
    obtain ⟨hq, -⟩ := h
    subst hq
    exact hI
  | quit =>
    simp only [step, Quit, Except.ok.injEq, Prod.mk.injEq] at h
    obtain ⟨hq, -⟩ := h
    subst hq
    exact hI
  | finish v url pos =>
    simp only [step] at h
    unfold finishPlaying at h
    dsimp only at h
    split at h
    · simp only [Except.ok.injEq, Prod.mk.injEq] at h
      obtain ⟨hq, -⟩ := h
      subst hq
      exact hI
    · split at h
      · exact nextVideo_bufOK hI h
      · simp only [Except.ok.injEq, Prod.mk.injEq] at h
        obtain ⟨hq, -⟩ := h
        subst hq
        split <;> exact hI
  | prefetchCb v =>
    simp only [step] at h
    unfold prefetchVideoStream at h
    simp only [Except.ok.injEq] at h
    split at h
    · simp only [Prod.mk.injEq] at h
      obtain ⟨hq, -⟩ := h
      subst hq
      exact hI
    · split at h <;>
        · simp only [Prod.mk.injEq] at h
          obtain ⟨hq, -⟩ := h
          subst hq
          exact hI
  | backendEvent e =>
    simp only [step] at h
    cases e with
    | playing =>
      simp only [handleEvent] at h
      split at h
      · refine handlePlaying_bufOK ?_ h
        exact hI
      · refine handlePlaying_bufOK ?_ h
        exact hI
    | paused =>
      simp only [handleEvent] at h
      split at h
      · simp only [Except.ok.injEq, Prod.mk.injEq] at h
        obtain ⟨hq, -⟩ := h
        subst hq
        exact hI
      · exact setPlayState_bufOK hI (fun hbs => absurd hbs (by decide)) h
    | stopped =>
      simp only [handleEvent] at h
      split at h
      · simp only [Except.ok.injEq, Prod.mk.injEq] at h
        obtain ⟨hq, -⟩ := h
        subst hq
        exact hI
      · exact nextVideo_bufOK hI h
    | buffering =>
      simp only [handleEvent] at h
      simp only [Except.ok.injEq, Prod.mk.injEq] at h
      obtain ⟨hq, -⟩ := h
      subst hq
      exact hI
    | seeking =>
      simp only [handleEvent] at h
      simp only [Except.ok.injEq, Prod.mk.injEq] at h
      obtain ⟨hq, -⟩ := h
      subst hq
      exact hI

theorem runTrace_bufOK {tr : List (Cmd × Int)} {ps ps' : PlayState}
    (htr : traceOK tr = true) (hI : bufferingPosOK ps)
    (hrun : runTrace ps tr = Except.ok ps') : bufferingPosOK ps' := by
  induction tr generalizing ps with
  | nil =>
    cases hrun
    exact hI
  | cons cb rest ih =>
    obtain ⟨c, b⟩ := cb
    have hok : posOK c = true := by
      have := htr
      unfold traceOK at this
      simp only [List.all_cons, Bool.and_eq_true, decide_eq_true_eq] at this
      exact this.1.2
    have hrest : traceOK rest = true := by
      have := htr
      unfold traceOK at this
      simp only [List.all_cons, Bool.and_eq_true] at this
      unfold traceOK
      exact this.2
    simp only [runTrace] at hrun
    split at hrun
    · exact absurd hrun (by simp)
    · rename_i ps2 effs2 heq
      exact ih hrest (step_bufOK hok hI heq) hrun

/-- C2 amended: after every sequence of command and backend-event handlers
with non-negative command positions, whenever the state is Buffering or
Seeking the `bufferingPosition` field holds a non-negative position; in the
other states the field may retain a stale non-negative value (left behind by
a seek that completed while a pause or play command was queued, or the
initial zero), which the code never reads. -/
theorem bufferingPosition_meaningful (tr : List (Cmd × Int)) (v0 : Int)
    (ps' : PlayState) (htr : traceOK tr = true)
    (hrun : runTrace (initialState v0) tr = Except.ok ps')
    (hbs : ps'.State = State.buffering ∨ ps'.State = State.seeking) :
    0 ≤ ps'.bufferingPosition :=
  runTrace_bufOK htr (fun _ => le_refl 0) hrun hbs

theorem bufferingPosition_meaningful_witness :
    traceOK traceC2W = true ∧
    runTrace (initialState 80) traceC2W = Except.ok psAfterC2W ∧
    (psAfterC2W.State = State.buffering ∨ psAfterC2W.State = State.seeking) ∧
    0 ≤ psAfterC2W.bufferingPosition :=
  ⟨by decide, by rfl, Or.inl rfl,
    bufferingPosition_meaningful traceC2W 80 psAfterC2W (by decide) (by rfl)
      (Or.inl rfl)⟩

theorem elemAt_isSome {l : List String} {i : Int}
    (h0 : 0 ≤ i) (hlt : i < (l.length : Int)) : ∃ v, elemAt l i = some v := by
  unfold elemAt
  rw [if_neg (by omega)]
  have hn : i.toNat < l.length := by omega
  exact ⟨l.get ⟨i.toNat, hn⟩, List.get?_eq_get hn⟩

/-- C3 counterexample: the empty-URL trigger can run while the play state is
Seeking (a second resolution of the still-current track is outstanding when
a seek begins); at the last track, `setPlayState` then substitutes the
pending seek position for the requested one, so the Stopped event carries
position 7 — not position 0 as claimed. -/
theorem nextVideo_seeking_cex :
    runTrace (initialState 80) traceC3 = Except.ok psSeekC3 ∧
    psSeekC3.Video = "a" ∧
    psSeekC3.State = State.seeking ∧
    (psSeekC3.Playlist.length : Int) ≤ psSeekC3.Index + 1 ∧
    finishPlaying 0 "a" "" 3 psSeekC3 =
      Except.ok (psStopC3, [Eff.stateChange State.stopped 7]) ∧
    psStopC3.Playlist = psSeekC3.Playlist ∧
    StateChange.mk State.stopped 7 ≠ StateChange.mk State.stopped 0 :=
  ⟨by rfl, by rfl, rfl, by decide, by rfl, rfl, by decide⟩

/-- C3 amended: when a track ends (backend stopped event while playing or
paused) or stream resolution yields an empty URL for the still-current
track, the coordinator runs `nextVideo`, and provided the play state is not
Seeking at that moment: with a valid next position `index+1` it increments
the index and enters Buffering at position 0 (emitting that event and
resolving the next id); when the current track was the last it becomes
Stopped, emits a Stopped event at position 0, and the playlist is unchanged.
(From Seeking — reachable only through the empty-URL path — the end-of-
playlist Stopped event instead carries the pending seek position.) -/
theorem nextVideo_advances_or_stops (bpos : Int) (videoId : String)
    (position : Int) (ps : PlayState) (hns : ps.State ≠ State.seeking) :
    (0 ≤ ps.Index + 1 ∧ ps.Index + 1 < (ps.Playlist.length : Int) →
      ∃ v, elemAt ps.Playlist (ps.Index + 1) = some v ∧
        nextVideo bpos ps =
          Except.ok
            ({ ps with
                Index := ps.Index + 1
                State := State.buffering
                previousState := State.stopped
                bufferingPosition := 0 },
              [Eff.stateChange State.buffering 0, Eff.resolve v])) ∧
    ((ps.Playlist.length : Int) ≤ ps.Index + 1 →
      nextVideo bpos ps =
        Except.ok
          ({ ps with
              State := State.stopped
              previousState := ps.State
              bufferingPosition := -1 },
            [Eff.stateChange State.stopped 0])) ∧
    (ps.State = State.playing ∨ ps.State = State.paused →
      handleEvent bpos ps State.stopped = nextVideo bpos ps) ∧
    (ps.Video = videoId →
      finishPlaying bpos videoId "" position ps = nextVideo bpos ps) := by
  refine ⟨?_, ?_, ?_, ?_⟩
  · rintro ⟨h0, hlt⟩
    obtain ⟨v, hv⟩ := elemAt_isSome h0 hlt
    refine ⟨v, hv, ?_⟩
    unfold nextVideo
    rw [if_pos hlt]
    simp [startPlaying, setPlayState, hv]
  · intro hge
    unfold nextVideo
    rw [if_neg (by omega)]
    simp [setPlayState, hns]
  · intro hpp
    simp only [handleEvent]
    rw [if_neg (by rcases hpp with hp | hp <;> simp [hp])]
  · intro hv2
    unfold finishPlaying
    rw [if_neg (by simp [hv2]), if_pos rfl]

theorem nextVideo_advances_or_stops_witness :
    psPlayingB.State ≠ State.seeking ∧
    ((0 ≤ psPlayingB.Index + 1 ∧ psPlayingB.Index + 1 < (psPlayingB.Playlist.length : Int) →
      ∃ v, elemAt psPlayingB.Playlist (psPlayingB.Index + 1) = some v ∧
        nextVideo 0 psPlayingB =
          Except.ok
            ({ psPlayingB with
                Index := psPlayingB.Index + 1
                State := State.buffering
                previousState := State.stopped
                bufferingPosition := 0 },
              [Eff.stateChange State.buffering 0, Eff.resolve v])) ∧
    ((psPlayingB.Playlist.length : Int) ≤ psPlayingB.Index + 1 →
      nextVideo 0 psPlayingB =
        Except.ok
          ({ psPlayingB with
              State := State.stopped
              previousState := psPlayingB.State
              bufferingPosition := -1 },
            [Eff.stateChange State.stopped 0])) ∧
    (psPlayingB.State = State.playing ∨ psPlayingB.State = State.paused →
      handleEvent 0 psPlayingB State.stopped = nextVideo 0 psPlayingB) ∧
    (psPlayingB.Video = "b" →
      finishPlaying 0 "b" "" 0 psPlayingB = nextVideo 0 psPlayingB)) :=
  ⟨by decide, nextVideo_advances_or_stops 0 "b" 0 psPlayingB (by decide)⟩

theorem scanLoop_after (videoId : String) (l : List String) (i j : Nat) :
    scanLoop videoId l i (some j) = (some j, decide (videoId ∈ l)) := by
  induction l generalizing i with
  | nil => simp [scanLoop]
  | cons v rest ih =>
    unfold scanLoop
    by_cases hv : v = videoId
    · rw [if_pos hv]
      simp [hv]
    · rw [if_neg hv]
      rw [ih]
      have hv2 : videoId ≠ v := Ne.symm hv
      simp [List.mem_cons, hv2]

theorem scanLoop_none (videoId : String) (l : List String) (i : Nat)
    (h : videoId ∉ l) : scanLoop videoId l i none = (none, false) := by
  induction l generalizing i with
  | nil => rfl
  | cons v rest ih =>
    simp only [List.mem_cons, not_or] at h
    unfold scanLoop
    rw [if_neg (fun hv => h.1 hv.symm)]
    exact ih (i + 1) h.2

theorem scanLoop_found (videoId : String) (l : List String) (i : Nat)
    (h : videoId ∈ l) :
    ∃ j : Nat,
      scanLoop videoId l i none = (some (i + j), decide (2 ≤ l.count videoId)) ∧
      l.get? j = some videoId ∧ ∀ k, k < j → l.get? k ≠ some videoId := by
  induction l generalizing i with
  | nil => cases h
  | cons v rest ih =>
    by_cases hv : v = videoId
    · refine ⟨0, ?_, by simp [hv], fun k hk => absurd hk (Nat.not_lt_zero k)⟩
      unfold scanLoop
      rw [if_pos hv]
      rw [scanLoop_after]
      have hiff : (videoId ∈ rest) ↔ (2 ≤ (v :: rest).count videoId) := by
        rw [hv, List.count_cons_self]
        constructor
        · intro hm
          have := List.count_pos_iff.mpr hm
          omega
        · intro hc
          have : 0 < rest.count videoId := by omega
          exact List.count_pos_iff.mp this
      rw [Nat.add_zero, decide_eq_decide.mpr hiff]
    · have hmem2 : videoId ∈ rest := by
        rcases List.mem_cons.mp h with he | hm
        · exact absurd he.symm hv
        · exact hm
      obtain ⟨j, hscan, hget, hfirst⟩ := ih (i + 1) hmem2
      refine ⟨j + 1, ?_, by simpa using hget, ?_⟩
      · unfold scanLoop
        rw [if_neg hv]
        rw [hscan]
        have h1 : i + 1 + j = i + (j + 1) := by omega
        have h2 : (v :: rest).count videoId = rest.count videoId := by
          rw [List.count_cons]
          simp [hv]
        rw [h1, h2]
      · intro k hk
        cases k with
        | zero =>
          simp only [List.get?_cons_zero]
          exact fun he => hv (Option.some.inj he)
        | succ k2 =>
          simpa using hfirst k2 (by omega)

/-- C4: replacing the playlist while the current playlist is non-empty
re-locates the identifier at the current index by value in the new playlist:
if it occurs, the new index is the first occurrence and a warning is logged
exactly when it occurs at least twice; if it occurs zero times the update
panics (a fatal contract violation) instead of continuing. -/
theorem updatePlaylist_relocates (ps : PlayState) (pl : List String)
    (videoId : String) (hcur : elemAt ps.Playlist ps.Index = some videoId) :
    (videoId ∉ pl → ∃ msg, updatePlaylist ps pl = Except.error msg) ∧
    (videoId ∈ pl →
      ∃ (j : Nat) (effs : List Eff),
        updatePlaylist ps pl =
          Except.ok ({ ps with Playlist := pl, Index := (j : Int) }, effs) ∧
        pl.get? j = some videoId ∧
        (∀ k, k < j → pl.get? k ≠ some videoId) ∧
        (Eff.logWarning ∈ effs ↔ 2 ≤ pl.count videoId)) := by
  have hne : ¬ (ps.Playlist.length = 0) := by
    intro h0
    unfold elemAt at hcur
    split at hcur
    · exact absurd hcur (by simp)
    · rw [List.get?_eq_none.mpr (by omega)] at hcur
      exact absurd hcur (by simp)
  constructor
  · intro hnm
    unfold updatePlaylist
    dsimp only
    rw [if_neg hne, hcur]
    dsimp only
    unfold setPlaylistIndex
    rw [scanLoop_none videoId pl 0 hnm]
    exact ⟨_, rfl⟩
  · intro hm
    obtain ⟨j, hscan, hget, hfirst⟩ := scanLoop_found videoId pl 0 hm
    rw [Nat.zero_add] at hscan
    refine ⟨j, ?_⟩
    unfold updatePlaylist
    dsimp only
    rw [if_neg hne, hcur]
    dsimp only
    unfold setPlaylistIndex
    rw [hscan]
    dsimp only
    split
    · refine ⟨_, rfl, hget, hfirst, ?_⟩
      by_cases hw : 2 ≤ pl.count videoId <;> simp [hw]
    · refine ⟨_, rfl, hget, hfirst, ?_⟩
      by_cases hw : 2 ≤ pl.count videoId <;> simp [hw]

theorem updatePlaylist_relocates_witness :
    elemAt psPlayingB.Playlist psPlayingB.Index = some "b" ∧
    (("b" : String) ∉ (["x", "b", "y"] : List String) →
      ∃ msg, updatePlaylist psPlayingB ["x", "b", "y"] = Except.error msg) ∧
    (("b" : String) ∈ (["x", "b", "y"] : List String) →
      ∃ (j : Nat) (effs : List Eff),
        updatePlaylist psPlayingB ["x", "b", "y"] =
          Except.ok ({ psPlayingB with Playlist := ["x", "b", "y"], Index := (j : Int) }, effs) ∧
        (["x", "b", "y"] : List String).get? j = some "b" ∧
        (∀ k, k < j → (["x", "b", "y"] : List String).get? k ≠ some "b") ∧
        (Eff.logWarning ∈ effs ↔ 2 ≤ (["x", "b", "y"] : List String).count "b")) :=
  ⟨by decide,
    (updatePlaylist_relocates psPlayingB ["x", "b", "y"] "b" (by decide)).1,
    (updatePlaylist_relocates psPlayingB ["x", "b", "y"] "b" (by decide)).2⟩

/-- C6: a seek command at position t while paused (with no pause or play
queued) enters Seeking with `bufferingPosition` t after recording the
previous state, and the subsequent backend seek-complete event (reported as
playing) restores Paused and emits exactly one state-change event, carrying
state Paused and position t — no intermediate Playing event. -/
theorem seek_paused_roundtrip (bpos t : Int) (ps : PlayState)
    (hp : ps.State = State.paused) (hn : ps.nextState = none) (ht : 0 ≤ t) :
    ∃ ps1 e1 ps2 e2,
      Seek bpos t ps = Except.ok (ps1, e1) ∧
      ps1.State = State.seeking ∧
      ps1.bufferingPosition = t ∧
      ps1.previousState = State.paused ∧
      stateChanges e1 = [StateChange.mk State.seeking t] ∧
      handleEvent bpos ps1 State.playing = Except.ok (ps2, e2) ∧
      ps2.State = State.paused ∧
      stateChanges e2 = [StateChange.mk State.paused t] := by
  have hne1 : ¬ (t = -1) := by omega
  refine ⟨{ ps with
              previousState := State.paused
              State := State.seeking
              bufferingPosition := t },
    [Eff.stateChange State.seeking t, Eff.bSetPosition t], ?_⟩
  by_cases hnv : ps.newVolume
  · refine ⟨{ ps with
                previousState := State.seeking
                State := State.paused
                bufferingPosition := -1
                newVolume := false },
      [Eff.bSetVolume ps.Volume, Eff.stateChange State.paused t],
      ?_, rfl, rfl, rfl, by simp [stateChanges], ?_, rfl, by simp [stateChanges]⟩
    · unfold Seek
      rw [if_neg (by simp [hp]), if_pos (Or.inl hp)]
      simp [setPlayState, hp, hne1]
    · simp [handleEvent, handlePlaying, setPlayState, hnv, hn, hne1]
  · refine ⟨{ ps with
                previousState := State.seeking
                State := State.paused
                bufferingPosition := -1 },
      [Eff.stateChange State.paused t],
      ?_, rfl, rfl, rfl, by simp [stateChanges], ?_, rfl, by simp [stateChanges]⟩
    · unfold Seek
      rw [if_neg (by simp [hp]), if_pos (Or.inl hp)]
      simp [setPlayState, hp, hne1]
    · simp [handleEvent, handlePlaying, setPlayState, hnv, hn, hne1]

theorem seek_paused_roundtrip_witness :
    psPausedAB.State = State.paused ∧ psPausedAB.nextState = none ∧ (0 : Int) ≤ 5 ∧
    ∃ ps1 e1 ps2 e2,
      Seek 0 5 psPausedAB = Except.ok (ps1, e1) ∧
      ps1.State = State.seeking ∧
      ps1.bufferingPosition = 5 ∧
      ps1.previousState = State.paused ∧
      stateChanges e1 = [StateChange.mk State.seeking 5] ∧
      handleEvent 0 ps1 State.playing = Except.ok (ps2, e2) ∧
      ps2.State = State.paused ∧
      stateChanges e2 = [StateChange.mk State.paused 5] :=
  ⟨rfl, rfl, by decide, seek_paused_roundtrip 0 5 psPausedAB rfl rfl (by decide)⟩

end MP
